import Mathlib

/-!
Dashboard.js: a shallow embedding

The repository is one React component, `Dashboard` (src/src/Dashboard.js).
The embedding has three layers, each translated from the source:

* JavaScript values and the operators the component uses on them
  (`.`, `?.`, `||`, `!= null`, `Array.prototype.map`);
* the render function (lines 59-158): the three chart objects, the three
  summary cards, the selector buttons and the loading / error / data branch;
* the component as a transition system (lines 31-57): the four `useState`
  cells, the `useEffect` with dependency list `[timeRange]`, the interval
  timer it arms and clears, the requests `fetchData` has in flight, and the
  render that follows every event (a render that throws unmounts the
  component).
-/

namespace Dashboard

/-! ## JavaScript values -/

/-- A JavaScript number. A finite double is kept as the rational it is equal
to; the rounding of arithmetic is not modelled, the component performs none. -/
inductive JsNum where
  | nan
  | inf (negative : Bool)
  | negZero
  | fin (q : ℚ)
  deriving DecidableEq

/-- The falsy numbers are `0`, `-0` and `NaN`. -/
def JsNum.isFalsy : JsNum → Bool
  | .nan => true
  | .negZero => true
  | .fin q => decide (q = 0)
  | .inf _ => false

/-- A JavaScript value as it can occur in the component state or in a parsed
response body. -/
inductive JsVal where
  | undefined
  | null
  | bool (b : Bool)
  | num (n : JsNum)
  | str (s : String)
  | arr (items : List JsVal)
  | obj (fields : List (String × JsVal))

/-- The only exception the render path can raise: a property read on
`undefined` / `null`, or a call of something that is not a function. -/
inductive TypeError where
  | readOfNullish (key : String)
  | notAFunction (key : String)
  deriving DecidableEq

/-- The test `v == null`: true of `null` and `undefined` only. -/
def JsVal.isNullish : JsVal → Bool
  | .undefined => true
  | .null => true
  | _ => false

/-- JavaScript truthiness (`ToBoolean`). -/
def JsVal.truthy : JsVal → Bool
  | .undefined => false
  | .null => false
  | .bool b => b
  | .num n => !n.isFalsy
  | .str s => decide (s ≠ "")
  | .arr _ => true
  | .obj _ => true

/-- The expression `a || b`. -/
def JsVal.or (a b : JsVal) : JsVal :=
  if a.truthy then a else b

/-- The expression `v.k` for a data key `k` (none of the keys the component
reads is a built-in of a prototype): a `TypeError` on `undefined` and `null`,
the own property of an object, `undefined` on every other value. -/
def JsVal.get (v : JsVal) (k : String) : Except TypeError JsVal :=
  match v with
  | .undefined => .error (.readOfNullish k)
  | .null => .error (.readOfNullish k)
  | .obj fields => .ok ((fields.lookup k).getD .undefined)
  | _ => .ok .undefined

/-- The expression `v?.k`: `undefined` when `v` is `undefined` or `null`,
otherwise `v.k`. -/
def JsVal.optGet (v : JsVal) (k : String) : JsVal :=
  match v with
  | .undefined => .undefined
  | .null => .undefined
  | .obj fields => (fields.lookup k).getD .undefined
  | _ => .undefined

/-- The callback of `Array.prototype.map` applied to the items in order; the
first exception aborts the traversal. -/
def mapItems (f : JsVal → Except TypeError JsVal) : List JsVal → Except TypeError (List JsVal)
  | [] => .ok []
  | x :: xs =>
    match f x with
    | .error e => .error e
    | .ok y =>
      match mapItems f xs with
      | .error e => .error e
      | .ok ys => .ok (y :: ys)

/-- The expression `v?.map(f)` where `v` is itself the end of an optional
chain: `undefined` when `v` is `undefined` or `null`; the mapped array when `v`
is an array; a `TypeError` otherwise (`v.map` is not a function: response
bodies are JSON, so no property of theirs is callable). -/
def JsVal.optMap (v : JsVal) (f : JsVal → Except TypeError JsVal) : Except TypeError JsVal :=
  match v with
  | .undefined => .ok .undefined
  | .null => .ok .undefined
  | .arr items =>
    match mapItems f items with
    | .error e => .error e
    | .ok ys => .ok (.arr ys)
  | _ => .error (.notAFunction "map")

/-- The expression `data?.<field>?.map(item => item.<key>) || []`, the shape of
every label and value sequence of lines 60-89. -/
def projection (data : JsVal) (field key : String) : Except TypeError JsVal :=
  match (data.optGet field).optMap (fun item => item.get key) with
  | .error e => .error e
  | .ok v => .ok (v.or (.arr []))

/-! ## The view model (lines 59-94) -/

/-- The five-colour palette of the bar and doughnut charts. -/
def palette : JsVal :=
  .arr [.str "#ff6384", .str "#36a2eb", .str "#ffce56", .str "#4bc0c0", .str "#9966ff"]

/-- The object literal `lineChartData` of lines 59-71. The literal `0.3` is the
double nearest to three tenths, 5404319552844595 / 2^54. -/
def lineChartData (data : JsVal) : Except TypeError JsVal :=
  match projection data "timeSeriesData" "timestamp" with
  | .error e => .error e
  | .ok labels =>
    match projection data "timeSeriesData" "value" with
    | .error e => .error e
    | .ok values =>
      .ok (.obj [("labels", labels),
        ("datasets", .arr [.obj [("label", .str "Metric Value"), ("data", values),
          ("fill", .bool false), ("backgroundColor", .str "#4CAF50"),
          ("borderColor", .str "#4CAF50"),
          ("tension", .num (.fin (5404319552844595 / 18014398509481984)))]])])

/-- The object literal `barChartData` of lines 73-83. -/
def barChartData (data : JsVal) : Except TypeError JsVal :=
  match projection data "categoryData" "category" with
  | .error e => .error e
  | .ok labels =>
    match projection data "categoryData" "count" with
    | .error e => .error e
    | .ok values =>
      .ok (.obj [("labels", labels),
        ("datasets", .arr [.obj [("label", .str "Category Distribution"), ("data", values),
          ("backgroundColor", palette), ("borderRadius", .num (.fin 8))]])])

/-- The object literal `doughnutData` of lines 85-94. -/
def doughnutData (data : JsVal) : Except TypeError JsVal :=
  match projection data "pieData" "label" with
  | .error e => .error e
  | .ok labels =>
    match projection data "pieData" "value" with
    | .error e => .error e
    | .ok values =>
      .ok (.obj [("labels", labels),
        ("datasets", .arr [.obj [("data", values), ("backgroundColor", palette),
          ("borderWidth", .num (.fin 1))]])])

/-- The `labels` member of a chart object. -/
def chartLabels (chart : JsVal) : JsVal :=
  chart.optGet "labels"

/-- The `data` member of the first (and only) dataset of a chart object. -/
def chartValues (chart : JsVal) : JsVal :=
  match chart.optGet "datasets" with
  | .arr (ds :: _) => ds.optGet "data"
  | _ => .undefined

/-! ## The summary cards (lines 121-136) -/

/-- Child of the Total Records card, line 124:
`data?.summary?.totalRecords || 0`. -/
def totalRecordsCard (data : JsVal) : JsVal :=
  ((data.optGet "summary").optGet "totalRecords").or (.num (.fin 0))

/-- Child of the Average Value card, line 129:
`data?.summary?.averageValue != null ? data.summary.averageValue : '0.00'`. -/
def averageValueCard (data : JsVal) : Except TypeError JsVal :=
  if !((data.optGet "summary").optGet "averageValue").isNullish then
    match data.get "summary" with
    | .error e => .error e
    | .ok summary => summary.get "averageValue"
  else
    .ok (.str "0.00")

/-- Child of the Last Updated card, line 134:
`data?.summary?.lastUpdated || 'N/A'`. -/
def lastUpdatedCard (data : JsVal) : JsVal :=
  ((data.optGet "summary").optGet "lastUpdated").or (.str "N/A")

/-! ## The renderer (lines 96-158) -/

/-- The four `useState` cells of lines 31-34. -/
structure ViewState where
  data : JsVal
  loading : Bool
  error : Option String
  timeRange : String

/-- The value of the `error` cell as a JavaScript value: `null` or a string. -/
def errorValue : Option String → JsVal
  | none => .null
  | some s => .str s

/-- The values the selector offers, the array literal of line 104. -/
def ranges : List String :=
  ["daily", "weekly", "monthly"]

/-- The expression `range.charAt(0).toUpperCase() + range.slice(1)` of line
114, for text whose first character is an ASCII letter or has no upper-case
form. -/
def capitalize (range : String) : String :=
  match range.data with
  | [] => ""
  | c :: cs => String.mk (c.toUpper :: cs)

/-- The class list of the active selector button (line 109). -/
def activeClass : String :=
  "bg-blue-600 text-white shadow-md"

/-- The class list of the other selector buttons (line 110). -/
def inactiveClass : String :=
  "bg-white text-gray-700 border border-gray-300 hover:bg-gray-200"

/-- One selector button of lines 105-115. `onClick` is the value its handler
passes to `setTimeRange`. -/
structure Button where
  key : String
  className : String
  onClick : String
  label : String
  deriving DecidableEq

/-- The button rendered for one value of the selector while `timeRange` is the
current one (lines 105-115). -/
def selectorButton (timeRange range : String) : Button :=
  { key := range
    className := "px-4 py-2 rounded-md font-semibold transition " ++
      (if timeRange = range then activeClass else inactiveClass)
    onClick := range
    label := capitalize range }

/-- Whether a button carries the active styling. -/
def Button.isActive (b : Button) : Bool :=
  b.className = "px-4 py-2 rounded-md font-semibold transition " ++ activeClass

/-- What the component returns: one of the three `return` statements of lines
96, 97 and 99. -/
inductive View where
  | loading (text : String)
  | error (child : JsVal)
  | dashboard (buttons : List Button) (totalRecords averageValue lastUpdated : JsVal)
      (line bar doughnut : JsVal)

/-- The body of the component from line 59 on: the three chart objects are
built first, then the branch on `loading` and `error` is taken. -/
def render (s : ViewState) : Except TypeError View :=
  match lineChartData s.data with
  | .error e => .error e
  | .ok line =>
    match barChartData s.data with
    | .error e => .error e
    | .ok bar =>
      match doughnutData s.data with
      | .error e => .error e
      | .ok doughnut =>
        if s.loading then .ok (.loading "Loading dashboard data...")
        else if (errorValue s.error).truthy then .ok (.error (errorValue s.error))
        else
          match averageValueCard s.data with
          | .error e => .error e
          | .ok average =>
            .ok (.dashboard (ranges.map (selectorButton s.timeRange))
              (totalRecordsCard s.data) average (lastUpdatedCard s.data) line bar doughnut)

/-! ## The fetch cycle (lines 37-49) -/

/-- How the promise of `axios.get` settles: fulfilled with a response whose
`data` is the body, or rejected. Which transport conditions reject is the
library's business; the component only sees the two cases. -/
inductive Outcome where
  | fulfilled (body : JsVal)
  | rejected

/-- The message of line 44. -/
def failureMessage : String :=
  "Failed to fetch data. Please try again later."

/-- The address requested by line 40 for a value of `timeRange`. -/
def metricsUrl (timeRange : String) : String :=
  "http://localhost:3001/metrics?timeRange=" ++ timeRange

/-- The part of `fetchData` before the `await`: `setLoading(true)`. -/
def fetchStart (s : ViewState) : ViewState :=
  { s with loading := true }

/-- The part of `fetchData` after the `await`: the rest of the `try` block when
the promise is fulfilled, the `catch` block when it is rejected, then the
`finally` block. -/
def fetchSettle (o : Outcome) (s : ViewState) : ViewState :=
  let afterTry : ViewState :=
    match o with
    | .fulfilled body => { { s with data := body } with error := none }
    | .rejected => { s with error := some failureMessage }
  { afterTry with loading := false }

/-- A call of `fetchData` during which nothing else happens: the two parts in
sequence. The source awaits between them, and other events (another cycle
settling among them) can come in between; `step` below takes the two parts
apart, and only what holds of every interleaving is stated with it. -/
def fetchData (o : Outcome) (s : ViewState) : ViewState :=
  fetchSettle o (fetchStart s)

/-! ## The component as a transition system (lines 30-57) -/

/-- An interval armed by `setInterval(fetchData, 60000)`: its handle, its
period and the `timeRange` its callback closes over. -/
structure Timer where
  id : Nat
  period : Nat
  range : String
  deriving DecidableEq

/-- A `GET` issued by `axios.get` that has not settled yet. -/
structure Request where
  id : Nat
  url : String
  deriving DecidableEq

/-- The component instance and the part of its environment it acts on.
`timers` are the intervals active in the browser, `cleanup` the handle the
current effect's cleanup function will clear, `pending` the requests in
flight; `nextTimer` and `nextRequest` number the handles. -/
structure Component where
  mounted : Bool
  state : ViewState
  timers : List Timer
  cleanup : Option Nat
  pending : List Request
  nextTimer : Nat
  nextRequest : Nat

/-- The call `clearInterval(id)`. -/
def clearInterval (id : Nat) (timers : List Timer) : List Timer :=
  timers.filter (fun t => t.id ≠ id)

/-- The cleanup function the effect returned (line 56), run by React before
the next run of the effect and on unmount. -/
def runCleanup (c : Component) : Component :=
  match c.cleanup with
  | none => c
  | some id => { c with timers := clearInterval id c.timers, cleanup := none }

/-- A call of `fetchData` up to its `await`, for the `timeRange` the closure
captured. -/
def startFetch (range : String) (c : Component) : Component :=
  { c with
    state := fetchStart c.state
    pending := c.pending ++ [{ id := c.nextRequest, url := metricsUrl range }]
    nextRequest := c.nextRequest + 1 }

/-- The effect body of lines 37-56 for the committed `timeRange`: one call of
`fetchData`, then `setInterval(fetchData, 60000)`, whose handle the returned
cleanup keeps. -/
def runEffect (c : Component) : Component :=
  let c1 := startFetch c.state.timeRange c
  { c1 with
    timers := c1.timers ++ [{ id := c1.nextTimer, period := 60000, range := c1.state.timeRange }]
    cleanup := some c1.nextTimer
    nextTimer := c1.nextTimer + 1 }

/-- The component right after mounting: the initial values of lines 31-34,
then the first run of the effect. -/
def mount : Component :=
  runEffect
    { mounted := true
      state := { data := .null, loading := true, error := none, timeRange := "monthly" }
      timers := []
      cleanup := none
      pending := []
      nextTimer := 0
      nextRequest := 0 }

/-- What can happen to a mounted component. -/
inductive Event where
  | click (range : String)
  | tick (timer : Nat)
  | settle (request : Nat) (outcome : Outcome)
  | unmount

/-- The buttons on screen: those of the data view, none in the other views or
when rendering throws. -/
def buttonsOnScreen (c : Component) : List Button :=
  if c.mounted then
    match render c.state with
    | .ok (.dashboard buttons _ _ _ _ _ _) => buttons
    | _ => []
  else []

/-- The handler of line 112 with what React does next: `setTimeRange(range)`;
when the value is the current one nothing re-renders and the effect, whose
dependency list is `[timeRange]`, does not run; otherwise the cleanup of the
previous run is called and the effect runs again for the new value. -/
def setTimeRange (range : String) (c : Component) : Component :=
  if c.state.timeRange = range then c
  else runEffect (runCleanup { c with state := { c.state with timeRange := range } })

/-- What React does once the state has changed: the component is rendered
again, and a render that throws (the component catches nothing) ends with the
component unmounted and the cleanup of its effect run. The cells keep their
last values in the record. -/
def commit (c : Component) : Component :=
  if c.mounted then
    match render c.state with
    | .error _ => { runCleanup c with mounted := false }
    | .ok _ => c
  else c

/-- What an event does by itself; `none` when the event cannot happen in this
state (a click on a button that is not on screen, a tick of an interval that is
not active, the settling of a request that is not in flight, a second
unmount). A request still in flight at unmount settles later without touching
the state. -/
def transition (c : Component) : Event → Option Component
  | .click range =>
    match (buttonsOnScreen c).find? (fun b => b.onClick = range) with
    | none => none
    | some b => some (setTimeRange b.onClick c)
  | .tick timer =>
    match c.timers.find? (fun t => t.id = timer) with
    | none => none
    | some t => some (startFetch t.range c)
  | .settle request outcome =>
    match c.pending.find? (fun r => r.id = request) with
    | none => none
    | some _ =>
      let rest := c.pending.filter (fun r => r.id ≠ request)
      if c.mounted then
        some { c with pending := rest, state := fetchSettle outcome c.state }
      else
        some { c with pending := rest }
  | .unmount =>
    if c.mounted then some { runCleanup c with mounted := false } else none

/-- One step of the component: the event, then the render that follows it. -/
def step (c : Component) (e : Event) : Option Component :=
  match transition c e with
  | none => none
  | some c1 => some (commit c1)

/-- The component after a sequence of events from mount. -/
def run : Component → List Event → Option Component
  | c, [] => some c
  | c, e :: es =>
    match step c e with
    | none => none
    | some c1 => run c1 es

/-- The states the component can be in. -/
def Reachable (c : Component) : Prop :=
  ∃ events, run mount events = some c

/-- What is on screen: nothing once unmounted, otherwise the result of
`render`. -/
def screen (c : Component) : Option (Except TypeError View) :=
  if c.mounted then some (render c.state) else none

/-! ## Vocabulary of the statements -/

/-- Whether a value is an object. -/
def JsVal.isObject : JsVal → Bool
  | .obj _ => true
  | _ => false

/-- A sequence member of a snapshot whose fields are all optional: absent,
`null`, or an array of objects (each with any of its own fields missing). -/
def isRecordList : JsVal → Bool
  | .undefined => true
  | .null => true
  | .arr items => items.all JsVal.isObject
  | _ => false

/-- The values of `data` of the data model: no snapshot (`null`, `undefined`)
or an object whose three sequence members, where present, are arrays of
objects. Nothing is asked of `summary`. -/
def isSnapshot (data : JsVal) : Bool :=
  match data with
  | .undefined => true
  | .null => true
  | .obj _ =>
    isRecordList (data.optGet "timeSeriesData") && isRecordList (data.optGet "categoryData")
      && isRecordList (data.optGet "pieData")
  | _ => false

/-- The elements of the sequence member `field` of `data`, none when the
snapshot or the member is missing. -/
def sequenceOf (data : JsVal) (field : String) : List JsVal :=
  match data.optGet field with
  | .arr items => items
  | _ => []

/-- A chart object was built, and its labels and its values are the
projections, element by element and in order, of the sequence `field` of
`data` on `labelKey` and on `valueKey`; both are empty when the snapshot or
the member is missing. -/
def ProjectsSequence (chart : Except TypeError JsVal) (data : JsVal)
    (field labelKey valueKey : String) : Prop :=
  ∃ c labels values,
    chart = .ok c ∧ chartLabels c = .arr labels ∧ chartValues c = .arr values ∧
    labels = (sequenceOf data field).map (fun item => item.optGet labelKey) ∧
    values = (sequenceOf data field).map (fun item => item.optGet valueKey) ∧
    labels.length = values.length ∧
    ((data.optGet field).isNullish = true → labels = [] ∧ values = [])

/-- The value of `data?.summary?.totalRecords`. -/
def totalRecordsField (data : JsVal) : JsVal :=
  (data.optGet "summary").optGet "totalRecords"

/-- The value of `data?.summary?.averageValue`. -/
def averageValueField (data : JsVal) : JsVal :=
  (data.optGet "summary").optGet "averageValue"

/-- The value of `data?.summary?.lastUpdated`. -/
def lastUpdatedField (data : JsVal) : JsVal :=
  (data.optGet "summary").optGet "lastUpdated"

/-- A body with the given `summary` and nothing else. -/
def summaryOnly (summary : List (String × JsVal)) : JsVal :=
  .obj [("summary", .obj summary)]

/-- Whether the data view is what is on screen. -/
def showsDashboard (c : Component) : Bool :=
  match screen c with
  | some (.ok (.dashboard _ _ _ _ _ _ _)) => true
  | _ => false

/-- The flag of `unsettledSinceStart` after one event that led from `c` to
`c1`: true when the event issued a request, false when it settled one,
unchanged otherwise. -/
def unsettledAfter (c c1 : Component) (e : Event) (unsettled : Bool) : Bool :=
  if c1.nextRequest ≠ c.nextRequest then true
  else
    match e with
    | .settle _ _ => false
    | _ => unsettled

/-- Whether, at the end of the run, no request has settled since the most
recent call of `fetchData`. `unsettled` says so for the start of the run; an
event that issues a request makes it true, the settling of a request makes it
false, every other event leaves it as it is. -/
def unsettledSinceStart : Component → List Event → Bool → Bool
  | _, [], unsettled => unsettled
  | c, e :: es, unsettled =>
    match step c e with
    | none => unsettled
    | some c1 => unsettledSinceStart c1 es (unsettledAfter c c1 e unsettled)

/-- The body of the last fulfilled response among the events, if there is
one. -/
def lastFulfilled : List Event → Option JsVal
  | [] => none
  | e :: es =>
    match lastFulfilled es with
    | some body => some body
    | none =>
      match e with
      | .settle _ (.fulfilled body) => some body
      | _ => none

/-- A snapshot with a field missing at every level: `categoryData` is absent,
`pieData` is `null`, and the elements of `timeSeriesData` lack a timestamp, a
value or both. -/
def sparseSnapshot : JsVal :=
  .obj [("timeSeriesData", .arr [.obj [("timestamp", .str "t1"), ("value", .num (.fin 1))],
      .obj [("value", .num (.fin 2))], .obj []]),
    ("pieData", .null)]

/-- The invariant of the component: `timeRange` is one of the offered values;
while mounted exactly one interval is active, of period 60000 ms, armed for the
current `timeRange`, and it is the one the pending cleanup will clear; once
unmounted none is active. -/
def TimerInvariant (c : Component) : Prop :=
  c.state.timeRange ∈ ranges ∧
  (c.mounted = true → ∃ t, c.timers = [t] ∧ t.period = 60000 ∧ t.range = c.state.timeRange ∧
    c.cleanup = some t.id ∧ t.id < c.nextTimer) ∧
  (c.mounted = false → c.timers = [] ∧ c.cleanup = none)

/-- The state the events lead to from mount (the mounted state itself when
they cannot happen in that order). -/
def stateAfter (events : List Event) : Component :=
  (run mount events).getD mount

/-! ## Lemmas on values -/

theorem get_eq_optGet (v : JsVal) (k : String) (h : v.isNullish = false) :
    v.get k = .ok (v.optGet k) := by
  cases v <;> simp_all [JsVal.get, JsVal.optGet, JsVal.isNullish]

theorem optGet_of_nullish (v : JsVal) (k : String) (h : v.isNullish = true) :
    v.optGet k = .undefined := by
  cases v <;> simp_all [JsVal.optGet, JsVal.isNullish]

theorem get_of_isObject (v : JsVal) (k : String) (h : v.isObject = true) :
    v.get k = .ok (v.optGet k) := by
  cases v <;> simp_all [JsVal.get, JsVal.optGet, JsVal.isObject]

theorem mapItems_get (key : String) (items : List JsVal)
    (h : items.all JsVal.isObject = true) :
    mapItems (fun item => item.get key) items
      = .ok (items.map (fun item => item.optGet key)) := by
  induction items with
  | nil => rfl
  | cons x xs ih =>
    simp only [List.all_cons, Bool.and_eq_true] at h
    simp [mapItems, get_of_isObject x key h.1, ih h.2]

theorem projection_eq (data : JsVal) (field key : String)
    (h : isRecordList (data.optGet field) = true) :
    projection data field key
      = .ok (.arr ((sequenceOf data field).map (fun item => item.optGet key))) := by
  unfold projection sequenceOf
  cases hv : data.optGet field <;> rw [hv] at h <;>
    simp_all [isRecordList, JsVal.optMap, JsVal.or, JsVal.truthy, mapItems_get]

theorem isRecordList_of_isSnapshot (data : JsVal) (h : isSnapshot data = true) :
    isRecordList (data.optGet "timeSeriesData") = true ∧
    isRecordList (data.optGet "categoryData") = true ∧
    isRecordList (data.optGet "pieData") = true := by
  cases data <;> simp_all [isSnapshot, JsVal.optGet, isRecordList]

theorem sequenceOf_of_nullish (data : JsVal) (field : String)
    (h : (data.optGet field).isNullish = true) : sequenceOf data field = [] := by
  unfold sequenceOf
  cases hv : data.optGet field <;> simp_all [JsVal.isNullish]

theorem averageValueCard_eq (data : JsVal) :
    averageValueCard data =
      .ok (if (averageValueField data).isNullish then .str "0.00" else averageValueField data) := by
  unfold averageValueCard averageValueField
  by_cases h : ((data.optGet "summary").optGet "averageValue").isNullish = true
  · simp [h]
  · have hs : (data.optGet "summary").isNullish = false := by
      by_contra hc
      simp at hc
      rw [optGet_of_nullish _ _ hc] at h
      simp [JsVal.isNullish] at h
    have hd : data.isNullish = false := by
      by_contra hc
      simp at hc
      rw [optGet_of_nullish _ _ hc] at hs
      simp [JsVal.isNullish] at hs
    simp [h, get_eq_optGet _ _ hd, get_eq_optGet _ _ hs]

theorem lineChartData_projects (data : JsVal) (h : isSnapshot data = true) :
    ProjectsSequence (lineChartData data) data "timeSeriesData" "timestamp" "value" := by
  have hr := (isRecordList_of_isSnapshot data h).1
  unfold ProjectsSequence
  simp only [lineChartData, projection_eq data _ _ hr]
  refine ⟨_, _, _, rfl, rfl, rfl, rfl, rfl, by simp, ?_⟩
  intro hn
  simp [sequenceOf_of_nullish data _ hn]

theorem barChartData_projects (data : JsVal) (h : isSnapshot data = true) :
    ProjectsSequence (barChartData data) data "categoryData" "category" "count" := by
  have hr := (isRecordList_of_isSnapshot data h).2.1
  unfold ProjectsSequence
  simp only [barChartData, projection_eq data _ _ hr]
  refine ⟨_, _, _, rfl, rfl, rfl, rfl, rfl, by simp, ?_⟩
  intro hn
  simp [sequenceOf_of_nullish data _ hn]

theorem doughnutData_projects (data : JsVal) (h : isSnapshot data = true) :
    ProjectsSequence (doughnutData data) data "pieData" "label" "value" := by
  have hr := (isRecordList_of_isSnapshot data h).2.2
  unfold ProjectsSequence
  simp only [doughnutData, projection_eq data _ _ hr]
  refine ⟨_, _, _, rfl, rfl, rfl, rfl, rfl, by simp, ?_⟩
  intro hn
  simp [sequenceOf_of_nullish data _ hn]

/-! ## Lemmas on the renderer -/

theorem render_dashboard_inv (s : ViewState) (bs : List Button) (t a l li ba d : JsVal)
    (h : render s = .ok (.dashboard bs t a l li ba d)) :
    bs = ranges.map (selectorButton s.timeRange) ∧ s.loading = false ∧
      (errorValue s.error).truthy = false := by
  unfold render at h
  split at h
  · cases h
  · split at h
    · cases h
    · split at h
      · cases h
      · split at h
        · cases h
        · split at h
          · cases h
          · split at h
            · cases h
            · simp only [Except.ok.injEq, View.dashboard.injEq] at h
              simp_all

theorem render_of_charts (s : ViewState) (line bar doughnut : JsVal)
    (hl : lineChartData s.data = .ok line) (hb : barChartData s.data = .ok bar)
    (hd : doughnutData s.data = .ok doughnut) :
    render s = .ok
      (if s.loading = true then .loading "Loading dashboard data..."
       else if (errorValue s.error).truthy = true then .error (errorValue s.error)
       else .dashboard (ranges.map (selectorButton s.timeRange)) (totalRecordsCard s.data)
        (if (averageValueField s.data).isNullish then .str "0.00" else averageValueField s.data)
        (lastUpdatedCard s.data) line bar doughnut) := by
  simp only [render, hl, hb, hd, averageValueCard_eq]
  split
  · rfl
  · split <;> rfl

theorem charts_of_render (s : ViewState) (v : View) (h : render s = .ok v) :
    ∃ line bar doughnut, lineChartData s.data = .ok line ∧ barChartData s.data = .ok bar ∧
      doughnutData s.data = .ok doughnut := by
  unfold render at h
  split at h
  · cases h
  · rename_i line hl
    split at h
    · cases h
    · rename_i bar hb
      split at h
      · cases h
      · rename_i doughnut hd
        exact ⟨line, bar, doughnut, hl, hb, hd⟩

theorem render_ok_of_data (s s' : ViewState) (hdata : s'.data = s.data)
    (h : ∃ v, render s = .ok v) : ∃ v, render s' = .ok v := by
  obtain ⟨v, hv⟩ := h
  obtain ⟨line, bar, doughnut, hl, hb, hd⟩ := charts_of_render s v hv
  rw [← hdata] at hl hb hd
  exact ⟨_, render_of_charts s' line bar doughnut hl hb hd⟩

theorem render_ok_of_isSnapshot (s : ViewState) (h : isSnapshot s.data = true) :
    ∃ v, render s = .ok v := by
  obtain ⟨line, _, _, hl, _⟩ := lineChartData_projects s.data h
  obtain ⟨bar, _, _, hb, _⟩ := barChartData_projects s.data h
  obtain ⟨doughnut, _, _, hd, _⟩ := doughnutData_projects s.data h
  exact ⟨_, render_of_charts s line bar doughnut hl hb hd⟩

theorem find_selectorButton (timeRange range : String) (h : range ∈ ranges) :
    (ranges.map (selectorButton timeRange)).find? (fun b => b.onClick = range)
      = some (selectorButton timeRange range) := by
  simp only [ranges, List.mem_cons, List.mem_singleton, List.not_mem_nil, or_false] at h
  rcases h with h | h | h <;> subst h <;> simp [ranges, selectorButton]

theorem active_selectorButton (timeRange : String) (h : timeRange ∈ ranges) :
    (ranges.map (selectorButton timeRange)).filter Button.isActive
      = [selectorButton timeRange timeRange] := by
  simp only [ranges, List.mem_cons, List.mem_singleton, List.not_mem_nil, or_false] at h
  rcases h with h | h | h <;> subst h <;> decide

theorem buttonsOnScreen_eq (c : Component) :
    buttonsOnScreen c = [] ∨
    (c.mounted = true ∧ c.state.loading = false ∧ (∃ v, render c.state = .ok v) ∧
      buttonsOnScreen c = ranges.map (selectorButton c.state.timeRange)) := by
  unfold buttonsOnScreen
  by_cases hm : c.mounted = true
  · simp only [hm, if_true]
    split
    · rename_i bs t a l li ba d heq
      obtain ⟨h1, h2, _⟩ := render_dashboard_inv _ _ _ _ _ _ _ _ heq
      exact Or.inr ⟨trivial, h2, ⟨_, heq⟩, h1⟩
    · exact Or.inl rfl
  · simp [hm]

theorem buttonsOnScreen_of_showsDashboard (c : Component) (h : showsDashboard c = true) :
    c.mounted = true ∧ (∃ v, render c.state = .ok v) ∧
      buttonsOnScreen c = ranges.map (selectorButton c.state.timeRange) := by
  unfold showsDashboard screen at h
  by_cases hm : c.mounted = true
  · simp only [hm, if_true] at h
    refine ⟨hm, ?_⟩
    unfold buttonsOnScreen
    simp only [hm, if_true]
    split at h
    · rename_i bs t a l li ba d heq
      simp only [Option.some.injEq] at heq
      rw [heq]
      exact ⟨⟨_, rfl⟩, (render_dashboard_inv _ _ _ _ _ _ _ _ heq).1⟩
    · cases h
  · simp [hm] at h

/-! ## Lemmas on the render after an event -/

theorem commit_state (c : Component) : (commit c).state = c.state := by
  unfold commit
  split
  · split
    · unfold runCleanup
      split <;> rfl
    · rfl
  · rfl

theorem commit_pending (c : Component) : (commit c).pending = c.pending := by
  unfold commit
  split
  · split
    · unfold runCleanup
      split <;> rfl
    · rfl
  · rfl

theorem commit_nextRequest (c : Component) : (commit c).nextRequest = c.nextRequest := by
  unfold commit
  split
  · split
    · unfold runCleanup
      split <;> rfl
    · rfl
  · rfl

theorem commit_of_ok (c : Component) (h : ∃ v, render c.state = .ok v) : commit c = c := by
  obtain ⟨v, hv⟩ := h
  unfold commit
  simp [hv]

theorem commit_of_unmounted (c : Component) (h : c.mounted = false) : commit c = c := by
  unfold commit
  simp [h]

theorem commit_mounted (c : Component) (h : (commit c).mounted = true) :
    commit c = c ∧ c.mounted = true ∧ ∃ v, render c.state = .ok v := by
  unfold commit at h ⊢
  by_cases hm : c.mounted = true
  · simp only [hm, if_true] at h ⊢
    cases hr : render c.state with
    | error e =>
      rw [hr] at h
      simp at h
    | ok v => exact ⟨rfl, trivial, v, rfl⟩
  · simp only [hm] at h
    simp at h
    exact absurd h hm

theorem commit_invariant (c : Component) (h : TimerInvariant c) :
    TimerInvariant (commit c) := by
  unfold commit
  split
  · rename_i hm
    split
    · obtain ⟨h1, h2, _⟩ := h
      obtain ⟨t, ht, _, _, hc, _⟩ := h2 hm
      refine ⟨?_, ?_, ?_⟩
      · simpa [runCleanup, hc] using h1
      · intro hf
        simp at hf
      · intro _
        simp [runCleanup, hc, ht, clearInterval]
    · exact h
  · exact h

theorem step_some (c c' : Component) (e : Event) (h : step c e = some c') :
    ∃ c1, transition c e = some c1 ∧ c' = commit c1 := by
  unfold step at h
  split at h
  · cases h
  · rename_i c1 ht
    simp only [Option.some.injEq] at h
    exact ⟨c1, ht, h.symm⟩

/-! ## Lemmas on the transition system -/

theorem transition_click_inv (c c1 : Component) (range : String)
    (h : transition c (.click range) = some c1) :
    c.mounted = true ∧ c.state.loading = false ∧ (∃ v, render c.state = .ok v) ∧
      range ∈ ranges ∧ c1 = setTimeRange range c := by
  simp only [transition] at h
  rcases buttonsOnScreen_eq c with hb | ⟨hm, hl, hok, hb⟩
  · simp [hb] at h
  · rw [hb] at h
    split at h
    · cases h
    · rename_i b hfind
      have hmem := List.mem_of_find?_eq_some hfind
      have hp := List.find?_some hfind
      simp only [List.mem_map] at hmem
      obtain ⟨r, hr, hrb⟩ := hmem
      subst hrb
      simp [selectorButton] at hp
      subst hp
      simp only [Option.some.injEq] at h
      exact ⟨hm, hl, hok, hr, by simpa [selectorButton] using h.symm⟩

theorem setTimeRange_data (c : Component) (range : String) :
    (setTimeRange range c).state.data = c.state.data := by
  unfold setTimeRange
  split
  · rfl
  · cases hc : c.cleanup <;> simp [runEffect, runCleanup, startFetch, fetchStart, hc]

theorem setTimeRange_mounted (c : Component) (range : String) :
    (setTimeRange range c).mounted = c.mounted := by
  unfold setTimeRange
  split
  · rfl
  · cases hc : c.cleanup <;> simp [runEffect, runCleanup, startFetch, fetchStart, hc]

theorem commit_setTimeRange (c : Component) (range : String)
    (hok : ∃ v, render c.state = .ok v) :
    commit (setTimeRange range c) = setTimeRange range c :=
  commit_of_ok _ (render_ok_of_data c.state _ (setTimeRange_data c range) hok)

theorem step_click_inv (c c' : Component) (range : String)
    (h : step c (.click range) = some c') :
    c.mounted = true ∧ c.state.loading = false ∧ range ∈ ranges ∧ c' = setTimeRange range c := by
  obtain ⟨c1, ht, hc⟩ := step_some c c' _ h
  obtain ⟨hm, hl, hok, hr, rfl⟩ := transition_click_inv c c1 range ht
  rw [commit_setTimeRange c range hok] at hc
  exact ⟨hm, hl, hr, hc⟩

theorem step_click_of_showsDashboard (c : Component) (v : String) (hv : v ∈ ranges)
    (hs : showsDashboard c = true) : step c (.click v) = some (setTimeRange v c) := by
  obtain ⟨_, hok, hb⟩ := buttonsOnScreen_of_showsDashboard c hs
  have ht : transition c (.click v) = some (setTimeRange v c) := by
    simp only [transition, hb, find_selectorButton c.state.timeRange v hv]
    rfl
  simp only [step, ht, commit_setTimeRange c v hok]

theorem step_settle_mounted (c : Component) (r : Request) (o : Outcome)
    (hm : c.mounted = true) (hr : r ∈ c.pending) :
    step c (.settle r.id o)
      = some (commit { c with pending := c.pending.filter (fun p => p.id ≠ r.id),
                              state := fetchSettle o c.state }) := by
  cases hf : c.pending.find? (fun p => p.id = r.id) with
  | none =>
    have := List.find?_eq_none.mp hf r hr
    simp at this
  | some found =>
    simp [step, transition, hf, hm]

theorem setTimeRange_invariant (c : Component) (range : String) (hr : range ∈ ranges)
    (hm : c.mounted = true) (h : TimerInvariant c) : TimerInvariant (setTimeRange range c) := by
  unfold setTimeRange
  split
  · exact h
  · obtain ⟨_, h2, _⟩ := h
    obtain ⟨t, ht, _, _, hc, _⟩ := h2 hm
    refine ⟨?_, ?_, ?_⟩
    · simpa [runEffect, runCleanup, startFetch, fetchStart, hc] using hr
    · intro _
      simp [runEffect, runCleanup, startFetch, fetchStart, hc, ht, clearInterval]
    · intro hf
      simp [runEffect, runCleanup, startFetch, fetchStart, hc, hm] at hf

theorem transition_invariant (c c' : Component) (e : Event) (h : TimerInvariant c)
    (hs : transition c e = some c') : TimerInvariant c' := by
  cases e with
  | click range =>
    obtain ⟨hm, _, _, hr, rfl⟩ := transition_click_inv c c' range hs
    exact setTimeRange_invariant c range hr hm h
  | tick timer =>
    simp only [transition] at hs
    split at hs
    · cases hs
    · simp only [Option.some.injEq] at hs
      subst hs
      simpa [TimerInvariant, startFetch, fetchStart] using h
  | settle request outcome =>
    simp only [transition] at hs
    split at hs
    · cases hs
    · split at hs
      · simp only [Option.some.injEq] at hs
        subst hs
        cases outcome <;> simpa [TimerInvariant, fetchSettle] using h
      · simp only [Option.some.injEq] at hs
        subst hs
        simpa [TimerInvariant] using h
  | unmount =>
    simp only [transition] at hs
    split at hs
    · rename_i hm
      simp only [Option.some.injEq] at hs
      subst hs
      obtain ⟨h1, h2, _⟩ := h
      obtain ⟨t, ht, _, _, hc, _⟩ := h2 hm
      refine ⟨?_, ?_, ?_⟩
      · simpa [runCleanup, hc] using h1
      · intro hf
        simp at hf
      · intro _
        simp [runCleanup, hc, ht, clearInterval]
    · cases hs

theorem step_invariant (c c' : Component) (e : Event) (h : TimerInvariant c)
    (hs : step c e = some c') : TimerInvariant c' := by
  obtain ⟨c1, ht, rfl⟩ := step_some c c' e hs
  exact commit_invariant c1 (transition_invariant c c1 e h ht)

theorem mount_invariant : TimerInvariant mount := by
  refine ⟨by decide, ?_, ?_⟩
  · intro _
    exact ⟨⟨0, 60000, "monthly"⟩, rfl, rfl, rfl, rfl, by decide⟩
  · intro h
    cases h

theorem run_preserves (P : Component → Prop)
    (hstep : ∀ c e c', P c → step c e = some c' → P c') :
    ∀ (events : List Event) (c c' : Component), P c → run c events = some c' → P c' := by
  intro events
  induction events with
  | nil =>
    intro c c' hc h
    simp only [run, Option.some.injEq] at h
    exact h ▸ hc
  | cons e es ih =>
    intro c c' hc h
    simp only [run] at h
    split at h
    · cases h
    · rename_i c1 hs
      exact ih c1 c' (hstep c e c1 hc hs) h

theorem reachable_invariant (c : Component) (h : Reachable c) : TimerInvariant c := by
  obtain ⟨events, hrun⟩ := h
  exact run_preserves TimerInvariant (fun c e c' hc hs => step_invariant c c' e hc hs)
    events mount c mount_invariant hrun

theorem transition_error (c c' : Component) (e : Event)
    (h : c.state.error = none ∨ c.state.error = some failureMessage)
    (hs : transition c e = some c') :
    c'.state.error = none ∨ c'.state.error = some failureMessage := by
  cases e with
  | click range =>
    obtain ⟨_, _, _, _, rfl⟩ := transition_click_inv c c' range hs
    unfold setTimeRange
    split
    · exact h
    · cases hcl : c.cleanup <;>
        simpa [runEffect, runCleanup, startFetch, fetchStart, hcl] using h
  | tick timer =>
    simp only [transition] at hs
    split at hs
    · cases hs
    · simp only [Option.some.injEq] at hs
      subst hs
      exact h
  | settle request outcome =>
    simp only [transition] at hs
    split at hs
    · cases hs
    · split at hs
      · simp only [Option.some.injEq] at hs
        subst hs
        cases outcome
        · exact Or.inl rfl
        · exact Or.inr rfl
      · simp only [Option.some.injEq] at hs
        subst hs
        exact h
  | unmount =>
    simp only [transition] at hs
    split at hs
    · simp only [Option.some.injEq] at hs
      subst hs
      unfold runCleanup
      split
      · exact h
      · exact h
    · cases hs

theorem reachable_error (c : Component) (h : Reachable c) :
    c.state.error = none ∨ c.state.error = some failureMessage := by
  obtain ⟨events, hrun⟩ := h
  refine run_preserves (fun c => c.state.error = none ∨ c.state.error = some failureMessage)
    ?_ events mount c (Or.inl rfl) hrun
  intro c e c' hc hs
  obtain ⟨c1, ht, rfl⟩ := step_some c c' e hs
  rw [commit_state]
  exact transition_error c c1 e hc ht

theorem reachable_render_ok (c : Component) (h : Reachable c) (hm : c.mounted = true) :
    ∃ v, render c.state = .ok v := by
  obtain ⟨events, hrun⟩ := h
  have hall := run_preserves (fun c => c.mounted = true → ∃ v, render c.state = .ok v)
    (fun c e c' _ hs => by
      obtain ⟨c1, _, rfl⟩ := step_some c c' e hs
      intro hmc
      obtain ⟨heq, _, hok⟩ := commit_mounted c1 hmc
      rw [heq]
      exact hok)
    events mount c (fun _ => ⟨_, rfl⟩) hrun
  exact hall hm

theorem transition_unmounted (c c' : Component) (e : Event) (hm : c.mounted = false)
    (hs : transition c e = some c') : c'.mounted = false := by
  cases e with
  | click range =>
    obtain ⟨hmc, _⟩ := transition_click_inv c c' range hs
    rw [hm] at hmc
    cases hmc
  | tick timer =>
    simp only [transition] at hs
    split at hs
    · cases hs
    · simp only [Option.some.injEq] at hs
      subst hs
      exact hm
  | settle request outcome =>
    simp only [transition, hm] at hs
    split at hs
    · cases hs
    · simp at hs
      subst hs
      rfl
  | unmount =>
    simp [transition, hm] at hs

theorem step_unmounted (c c' : Component) (e : Event) (hm : c.mounted = false)
    (hs : step c e = some c') : c'.mounted = false := by
  obtain ⟨c1, ht, rfl⟩ := step_some c c' e hs
  have h1 := transition_unmounted c c1 e hm ht
  rw [commit_of_unmounted c1 h1]
  exact h1

theorem run_unmounted (events : List Event) (c c' : Component) (hm : c.mounted = false)
    (hrun : run c events = some c') : c'.mounted = false :=
  run_preserves (fun c => c.mounted = false)
    (fun c e c' hc hs => step_unmounted c c' e hc hs) events c c' hm hrun

/-! ## Lemmas on the data and the loading flag along a run -/

theorem step_data (c c' : Component) (e : Event) (hs : step c e = some c')
    (hm : c'.mounted = true) :
    c'.state.data = (lastFulfilled [e]).getD c.state.data := by
  obtain ⟨c1, ht, rfl⟩ := step_some c c' e hs
  obtain ⟨_, hm1, _⟩ := commit_mounted c1 hm
  rw [commit_state]
  have hmc : c.mounted = true := by
    by_contra hc
    simp only [Bool.not_eq_true] at hc
    rw [transition_unmounted c c1 e hc ht] at hm1
    cases hm1
  cases e with
  | click range =>
    obtain ⟨_, _, _, _, rfl⟩ := transition_click_inv c c1 range ht
    rw [setTimeRange_data]
    rfl
  | tick timer =>
    simp only [transition] at ht
    split at ht
    · cases ht
    · simp only [Option.some.injEq] at ht
      subst ht
      rfl
  | settle request outcome =>
    simp only [transition, hmc, if_true] at ht
    split at ht
    · cases ht
    · simp only [Option.some.injEq] at ht
      subst ht
      cases outcome <;> rfl
  | unmount =>
    simp only [transition, hmc, if_true, Option.some.injEq] at ht
    subst ht
    cases hm1

theorem run_data :
    ∀ (events : List Event) (c c' : Component), run c events = some c' → c'.mounted = true →
      c'.state.data = (lastFulfilled events).getD c.state.data := by
  intro events
  induction events with
  | nil =>
    intro c c' hrun _
    simp only [run, Option.some.injEq] at hrun
    subst hrun
    rfl
  | cons e es ih =>
    intro c c' hrun hm
    simp only [run] at hrun
    split at hrun
    · cases hrun
    · rename_i c1 hs
      have hm1 : c1.mounted = true := by
        by_contra hc
        simp only [Bool.not_eq_true] at hc
        rw [run_unmounted es c1 c' hc hrun] at hm
        cases hm
      have h1 := ih c1 c' hrun hm
      have h2 := step_data c c1 e hs hm1
      rw [h1, h2]
      simp only [lastFulfilled]
      cases lastFulfilled es with
      | some body => rfl
      | none => rfl

theorem setTimeRange_other (c : Component) (range : String)
    (h : ¬ c.state.timeRange = range) :
    (setTimeRange range c).state.loading = true ∧
    (setTimeRange range c).nextRequest = c.nextRequest + 1 ∧
    (setTimeRange range c).pending
      = c.pending ++ [{ id := c.nextRequest, url := metricsUrl range }] ∧
    (setTimeRange range c).state.timeRange = range := by
  cases hc : c.cleanup <;>
    simp [setTimeRange, h, runEffect, runCleanup, startFetch, fetchStart, hc]

theorem step_loading (c c' : Component) (e : Event) (unsettled : Bool)
    (hinv : c.mounted = true → c.state.loading = unsettled ∧ (unsettled = true → c.pending ≠ []))
    (hs : step c e = some c') (hm : c'.mounted = true) :
    c'.state.loading = unsettledAfter c c' e unsettled ∧
      (unsettledAfter c c' e unsettled = true → c'.pending ≠ []) := by
  obtain ⟨c1, ht, rfl⟩ := step_some c c' e hs
  obtain ⟨_, hm1, _⟩ := commit_mounted c1 hm
  unfold unsettledAfter
  rw [commit_state, commit_pending, commit_nextRequest]
  have hmc : c.mounted = true := by
    by_contra hc
    simp only [Bool.not_eq_true] at hc
    rw [transition_unmounted c c1 e hc ht] at hm1
    cases hm1
  obtain ⟨hload, hpend⟩ := hinv hmc
  cases e with
  | click range =>
    obtain ⟨_, _, _, _, rfl⟩ := transition_click_inv c c1 range ht
    by_cases heq : c.state.timeRange = range
    · have hsame : setTimeRange range c = c := by simp [setTimeRange, heq]
      rw [hsame]
      simpa using ⟨hload, hpend⟩
    · obtain ⟨h1, h2, h3, _⟩ := setTimeRange_other c range heq
      rw [h1, h2, h3]
      simp
  | tick timer =>
    simp only [transition] at ht
    split at ht
    · cases ht
    · simp only [Option.some.injEq] at ht
      subst ht
      simp [startFetch, fetchStart]
  | settle request outcome =>
    simp only [transition, hmc, if_true] at ht
    split at ht
    · cases ht
    · simp only [Option.some.injEq] at ht
      subst ht
      cases outcome <;> simp [fetchSettle]
  | unmount =>
    simp only [transition, hmc, if_true, Option.some.injEq] at ht
    subst ht
    cases hm1

theorem run_loading :
    ∀ (events : List Event) (c c' : Component) (unsettled : Bool),
      (c.mounted = true → c.state.loading = unsettled ∧ (unsettled = true → c.pending ≠ [])) →
      run c events = some c' → c'.mounted = true →
      c'.state.loading = unsettledSinceStart c events unsettled ∧
        (unsettledSinceStart c events unsettled = true → c'.pending ≠ []) := by
  intro events
  induction events with
  | nil =>
    intro c c' unsettled hinv hrun hm
    simp only [run, Option.some.injEq] at hrun
    subst hrun
    exact hinv hm
  | cons e es ih =>
    intro c c' unsettled hinv hrun hm
    simp only [run] at hrun
    split at hrun
    · cases hrun
    · rename_i c1 hs
      simp only [unsettledSinceStart, hs]
      exact ih c1 c' _ (fun hm1 => step_loading c c1 e unsettled hinv hs hm1) hrun hm

/-! ## The view model and the cards -/

/-- C4: for every `data` that is no snapshot or a snapshot with any of its
fields missing (its sequence members absent, `null`, or arrays of objects that
may lack any of their own fields), `lineChartData`, `barChartData` and
`doughnutData` are built without an exception, and the labels and the values of
each are the projections, element by element and in order, of its source
sequence (timestamp / value of `timeSeriesData`, category / count of
`categoryData`, label / value of `pieData`), so of equal length, and empty
when the snapshot or the member is missing. -/
theorem chart_data_total_projection (data : JsVal) (h : isSnapshot data = true) :
    ProjectsSequence (lineChartData data) data "timeSeriesData" "timestamp" "value" ∧
    ProjectsSequence (barChartData data) data "categoryData" "category" "count" ∧
    ProjectsSequence (doughnutData data) data "pieData" "label" "value" :=
  ⟨lineChartData_projects data h, barChartData_projects data h, doughnutData_projects data h⟩

/-- The statement of C4 at a snapshot with a field missing at every level. -/
theorem chart_data_total_projection_witness :
    isSnapshot sparseSnapshot = true ∧
    ProjectsSequence (lineChartData sparseSnapshot) sparseSnapshot
      "timeSeriesData" "timestamp" "value" ∧
    ProjectsSequence (barChartData sparseSnapshot) sparseSnapshot
      "categoryData" "category" "count" ∧
    ProjectsSequence (doughnutData sparseSnapshot) sparseSnapshot "pieData" "label" "value" :=
  ⟨rfl, chart_data_total_projection sparseSnapshot rfl⟩

/-- C5: the child of the Average Value card is the string "0.00" when `data`,
`data.summary` or `data.summary.averageValue` is `null` or missing, and is the
value of `averageValue` itself in every other case; 3.5 gives 3.5 and a
present 0 gives the number 0, not "0.00". The expression never throws. -/
theorem averageValue_card_default_only_when_nullish :
    (∀ data : JsVal,
      data.isNullish = true ∨ (data.optGet "summary").isNullish = true ∨
        (averageValueField data).isNullish = true →
      averageValueCard data = .ok (.str "0.00")) ∧
    (∀ data : JsVal, (averageValueField data).isNullish = false →
      averageValueCard data = .ok (averageValueField data)) ∧
    averageValueCard (summaryOnly [("averageValue", .num (.fin (7 / 2)))])
      = .ok (.num (.fin (7 / 2))) ∧
    averageValueCard (summaryOnly [("averageValue", .num (.fin 0))]) = .ok (.num (.fin 0)) := by
  refine ⟨?_, ?_, rfl, rfl⟩
  · intro data h
    have hn : (averageValueField data).isNullish = true := by
      rcases h with h | h | h
      · rw [averageValueField, optGet_of_nullish data _ h]
        rfl
      · simp [averageValueField, optGet_of_nullish _ _ h, JsVal.isNullish]
      · exact h
    simp [averageValueCard_eq, hn]
  · intro data h
    simp [averageValueCard_eq, h]

/-- C6, as the claim states it, fails: with `lastUpdated` present and equal to
the empty string the Last Updated card shows "N/A", not the field. -/
theorem lastUpdated_empty_string_counterexample :
    lastUpdatedField (summaryOnly [("lastUpdated", .str "")]) = .str "" ∧
    lastUpdatedCard (summaryOnly [("lastUpdated", .str "")]) = .str "N/A" ∧
    lastUpdatedCard (summaryOnly [("lastUpdated", .str "")])
      ≠ lastUpdatedField (summaryOnly [("lastUpdated", .str "")]) := by
  refine ⟨rfl, rfl, ?_⟩
  intro h
  have h2 : JsVal.str "N/A" = JsVal.str "" := h
  simp at h2

/-- C6, amended: the Total Records card shows `summary.totalRecords` when that
value is truthy and 0 when it is missing or falsy (a finite number is shown as
itself either way), the Last Updated card shows `summary.lastUpdated` when that
value is truthy and "N/A" when it is missing or falsy (the empty string
included); the body with only `summary.totalRecords = 42` gives the cards 42,
"0.00" and "N/A" and three charts with empty labels and values. -/
theorem summary_cards_default_on_falsy :
    (∀ data : JsVal, (totalRecordsField data).truthy = true →
      totalRecordsCard data = totalRecordsField data) ∧
    (∀ data : JsVal, (totalRecordsField data).truthy = false →
      totalRecordsCard data = .num (.fin 0)) ∧
    (∀ (data : JsVal) (q : ℚ), totalRecordsField data = .num (.fin q) →
      totalRecordsCard data = .num (.fin q)) ∧
    (∀ data : JsVal, (lastUpdatedField data).truthy = true →
      lastUpdatedCard data = lastUpdatedField data) ∧
    (∀ data : JsVal, (lastUpdatedField data).truthy = false →
      lastUpdatedCard data = .str "N/A") ∧
    (∀ (data : JsVal) (text : String), lastUpdatedField data = .str text →
      lastUpdatedCard data = .str (if text = "" then "N/A" else text)) ∧
    (∀ data : JsVal, (data.optGet "summary").isNullish = true →
      totalRecordsCard data = .num (.fin 0) ∧ lastUpdatedCard data = .str "N/A") ∧
    (∀ timeRange : String, ∃ line bar doughnut,
      render { data := summaryOnly [("totalRecords", .num (.fin 42))], loading := false,
               error := none, timeRange := timeRange }
        = .ok (.dashboard (ranges.map (selectorButton timeRange))
            (.num (.fin 42)) (.str "0.00") (.str "N/A") line bar doughnut) ∧
      chartLabels line = .arr [] ∧ chartValues line = .arr [] ∧
      chartLabels bar = .arr [] ∧ chartValues bar = .arr [] ∧
      chartLabels doughnut = .arr [] ∧ chartValues doughnut = .arr []) := by
  refine ⟨?_, ?_, ?_, ?_, ?_, ?_, ?_, ?_⟩
  · intro data h
    simp [totalRecordsCard, JsVal.or, totalRecordsField] at h ⊢
    simp [h]
  · intro data h
    simp [totalRecordsCard, JsVal.or, totalRecordsField] at h ⊢
    simp [h]
  · intro data q h
    simp only [totalRecordsField] at h
    by_cases hq : q = 0
    · subst hq
      simp [totalRecordsCard, JsVal.or, h]
    · simp [totalRecordsCard, JsVal.or, h, JsVal.truthy, JsNum.isFalsy, hq]
  · intro data h
    simp [lastUpdatedCard, JsVal.or, lastUpdatedField] at h ⊢
    simp [h]
  · intro data h
    simp [lastUpdatedCard, JsVal.or, lastUpdatedField] at h ⊢
    simp [h]
  · intro data text h
    simp only [lastUpdatedField] at h
    by_cases ht : text = ""
    · simp [lastUpdatedCard, JsVal.or, h, JsVal.truthy, ht]
    · simp [lastUpdatedCard, JsVal.or, h, JsVal.truthy, ht]
  · intro data h
    simp [totalRecordsCard, lastUpdatedCard, optGet_of_nullish _ _ h, JsVal.or, JsVal.truthy]
  · intro timeRange
    exact ⟨_, _, _, rfl, rfl, rfl, rfl, rfl, rfl, rfl⟩

/-! ## The renderer -/

/-- C1: for every view state the component can hold (every state reachable
from mount, with the component mounted or with `data` of the data model), the
component returns exactly one of the three views, by priority: the loading
view when `loading` is true; the error view, whose only child is the error
string, when `loading` is false and `error` is not `null`; the data view (the
three selector buttons, the three cards, the three charts) in every remaining
case, that is `loading` false and `error` `null`. -/
theorem render_branch_priority (c : Component) (h : Reachable c)
    (hd : c.mounted = true ∨ isSnapshot c.state.data = true) :
    (c.state.loading = true → render c.state = .ok (.loading "Loading dashboard data...")) ∧
    (∀ message : String, c.state.loading = false → c.state.error = some message →
      render c.state = .ok (.error (.str message))) ∧
    (c.state.loading = false → c.state.error = none →
      ∃ line bar doughnut,
        lineChartData c.state.data = .ok line ∧ barChartData c.state.data = .ok bar ∧
        doughnutData c.state.data = .ok doughnut ∧
        render c.state = .ok (.dashboard (ranges.map (selectorButton c.state.timeRange))
          (totalRecordsCard c.state.data)
          (if (averageValueField c.state.data).isNullish then .str "0.00"
            else averageValueField c.state.data)
          (lastUpdatedCard c.state.data) line bar doughnut)) := by
  have hok : ∃ v, render c.state = .ok v := by
    rcases hd with hm | hs
    · exact reachable_render_ok c h hm
    · exact render_ok_of_isSnapshot c.state hs
  obtain ⟨v, hv⟩ := hok
  obtain ⟨line, bar, doughnut, hl, hb, hdo⟩ := charts_of_render c.state v hv
  have hrender := render_of_charts c.state line bar doughnut hl hb hdo
  refine ⟨?_, ?_, ?_⟩
  · intro hload
    simp [hrender, hload]
  · intro message hload herr
    have hmsg : message = failureMessage := by
      rcases reachable_error c h with hn | hf
      · rw [hn] at herr
        cases herr
      · rw [hf] at herr
        exact (Option.some.inj herr).symm
    subst hmsg
    simp [hrender, hload, herr, errorValue, JsVal.truthy, failureMessage]
  · intro hload herr
    refine ⟨line, bar, doughnut, hl, hb, hdo, ?_⟩
    simp [hrender, hload, herr, errorValue, JsVal.truthy]

/-- The statement of C1 after the request of the mount was rejected: the error
view with the failure message is returned. -/
theorem render_branch_priority_witness :
    Reachable (stateAfter [.settle 0 .rejected]) ∧
    (stateAfter [.settle 0 .rejected]).mounted = true ∧
    render (stateAfter [.settle 0 .rejected]).state
      = .ok (.error (.str "Failed to fetch data. Please try again later.")) :=
  ⟨⟨[.settle 0 .rejected], rfl⟩, rfl,
    (render_branch_priority (stateAfter [.settle 0 .rejected])
      ⟨[.settle 0 .rejected], rfl⟩ (Or.inl rfl)).2.1
      "Failed to fetch data. Please try again later." rfl rfl⟩

/-! ## The fetch cycle -/

/-- C2, as the claim states it, fails: the request of the mount starts while
`data` is `null`; the first tick issues a second request, which is fulfilled
first; when the request of the mount is then rejected, the state has the
failure message and `loading` false, but `data` is the body of the second
request, not the `null` held before the failed cycle started. -/
theorem failed_cycle_after_fulfilled_one_counterexample :
    mount.state.data = .null ∧
    mount.pending = [{ id := 0, url := "http://localhost:3001/metrics?timeRange=monthly" }] ∧
    run mount [.tick 0, .settle 1 (.fulfilled (.str "fresh body")), .settle 0 .rejected]
      = some (stateAfter
          [.tick 0, .settle 1 (.fulfilled (.str "fresh body")), .settle 0 .rejected]) ∧
    (stateAfter [.tick 0, .settle 1 (.fulfilled (.str "fresh body")),
      .settle 0 .rejected]).state.error = some "Failed to fetch data. Please try again later." ∧
    (stateAfter [.tick 0, .settle 1 (.fulfilled (.str "fresh body")),
      .settle 0 .rejected]).state.loading = false ∧
    (stateAfter [.tick 0, .settle 1 (.fulfilled (.str "fresh body")),
      .settle 0 .rejected]).state.data = .str "fresh body" ∧
    (stateAfter [.tick 0, .settle 1 (.fulfilled (.str "fresh body")),
      .settle 0 .rejected]).state.data ≠ mount.state.data := by
  refine ⟨rfl, rfl, rfl, rfl, rfl, rfl, ?_⟩
  intro h
  have h2 : JsVal.str "fresh body" = JsVal.null := h
  cases h2

/-- C2, amended: for every state `start` of the component, every run of events
from it to a state in which the component is mounted and a request is in
flight, the rejection of that request leaves `error` equal to the fixed
message, `loading` false and `data` as the rejection finds it: the failure
path never writes `data`, so a snapshot already there is kept. That `data` is
the data held in `start` (so the data held before the cycle started, when
`start` is where it started) whenever no request was fulfilled in between, and
the body of the last one fulfilled in between otherwise. -/
theorem fetch_failure_keeps_data (start : Component) (events : List Event) (c : Component)
    (r : Request) (hrun : run start events = some c) (hm : c.mounted = true)
    (hr : r ∈ c.pending) :
    ∃ c', step c (.settle r.id .rejected) = some c' ∧
      c'.state.error = some "Failed to fetch data. Please try again later." ∧
      c'.state.loading = false ∧
      c'.state.data = c.state.data ∧
      c'.state.data = (lastFulfilled events).getD start.state.data ∧
      (lastFulfilled events = none → c'.state.data = start.state.data) ∧
      c'.state.timeRange = c.state.timeRange ∧
      c'.pending = c.pending.filter (fun p => p.id ≠ r.id) := by
  have hdata := run_data events start c hrun hm
  refine ⟨_, step_settle_mounted c r .rejected hm hr, ?_, ?_, ?_, ?_, ?_, ?_, ?_⟩
  · rw [commit_state]
    rfl
  · rw [commit_state]
    rfl
  · rw [commit_state]
    rfl
  · rw [commit_state]
    exact hdata
  · intro hnone
    rw [commit_state]
    rw [hnone] at hdata
    exact hdata
  · rw [commit_state]
    rfl
  · rw [commit_pending]

/-- The statement of C2 with a snapshot on screen: `weekly` is selected and its
request is rejected with nothing fulfilled in between; the state holds the
failure message and still the snapshot held when the cycle started. -/
theorem fetch_failure_keeps_data_witness :
    (stateAfter [.settle 0 (.fulfilled sparseSnapshot)]).state.data = sparseSnapshot ∧
    ∃ c', step (stateAfter [.settle 0 (.fulfilled sparseSnapshot), .click "weekly"])
        (.settle 1 .rejected) = some c' ∧
      c'.state.error = some "Failed to fetch data. Please try again later." ∧
      c'.state.loading = false ∧
      c'.state.data = (stateAfter [.settle 0 (.fulfilled sparseSnapshot)]).state.data := by
  refine ⟨rfl, ?_⟩
  obtain ⟨c', h1, h2, h3, _, _, h6, _⟩ :=
    fetch_failure_keeps_data (stateAfter [.settle 0 (.fulfilled sparseSnapshot)])
      [.click "weekly"] (stateAfter [.settle 0 (.fulfilled sparseSnapshot), .click "weekly"])
      { id := 1, url := metricsUrl "weekly" } rfl rfl (by decide)
  exact ⟨c', h1, h2, h3, h6 rfl⟩

/-- C3: for every state of the mounted component (one that holds an error
from an earlier failed cycle included) and every request in flight, whichever
`timeRange` it was issued for and whatever else is still in flight, its
fulfilment leaves `data` equal to the response body (the previous snapshot is
replaced as a whole), `error` equal to `null` and `loading` false; so of two
overlapping cycles the one that is fulfilled last decides the state. A whole
call of `fetchData` that is fulfilled does the same from every prior state. -/
theorem fetch_success_replaces_data (c : Component) (r : Request) (body : JsVal)
    (hm : c.mounted = true) (hr : r ∈ c.pending) :
    (∃ c', step c (.settle r.id (.fulfilled body)) = some c' ∧
      c'.state.data = body ∧ c'.state.error = none ∧ c'.state.loading = false ∧
      c'.state.timeRange = c.state.timeRange ∧
      c'.pending = c.pending.filter (fun p => p.id ≠ r.id)) ∧
    (∀ s : ViewState,
      (fetchData (.fulfilled body) s).data = body ∧ (fetchData (.fulfilled body) s).error = none ∧
      (fetchData (.fulfilled body) s).loading = false ∧
      (fetchData (.fulfilled body) s).timeRange = s.timeRange) := by
  refine ⟨⟨_, step_settle_mounted c r (.fulfilled body) hm hr, ?_, ?_, ?_, ?_, ?_⟩,
    fun _ => ⟨rfl, rfl, rfl, rfl⟩⟩
  · rw [commit_state]
    rfl
  · rw [commit_state]
    rfl
  · rw [commit_state]
    rfl
  · rw [commit_state]
    rfl
  · rw [commit_pending]

/-- The statement of C3 at the race of the specification: the request of the
first tick, issued for `monthly`, is still in flight when `weekly` has been
selected and fetched; its late fulfilment puts the monthly body in `data`
while `timeRange` is `weekly`. -/
theorem fetch_success_replaces_data_witness :
    (stateAfter [.tick 0, .settle 0 (.fulfilled .null), .click "weekly",
      .settle 2 (.fulfilled (.str "weekly body"))]).state.timeRange = "weekly" ∧
    (stateAfter [.tick 0, .settle 0 (.fulfilled .null), .click "weekly",
      .settle 2 (.fulfilled (.str "weekly body"))]).state.data = .str "weekly body" ∧
    ∃ c', step (stateAfter [.tick 0, .settle 0 (.fulfilled .null), .click "weekly",
        .settle 2 (.fulfilled (.str "weekly body"))])
        (.settle 1 (.fulfilled (.str "monthly body"))) = some c' ∧
      c'.state.data = .str "monthly body" ∧ c'.state.error = none ∧
      c'.state.loading = false ∧ c'.state.timeRange = "weekly" ∧
      c'.pending = [] :=
  ⟨rfl, rfl,
    (fetch_success_replaces_data
      (stateAfter [.tick 0, .settle 0 (.fulfilled .null), .click "weekly",
        .settle 2 (.fulfilled (.str "weekly body"))])
      { id := 1, url := metricsUrl "monthly" } (.str "monthly body") rfl (by decide)).1⟩

/-! ## The refresh scheduler -/

/-- C7: in every state reachable from mount by selections, ticks, settled
requests and unmount, at most one interval is active: exactly one while
mounted (period 60000 ms, armed for the current `timeRange`, and the one the
cleanup will clear), none after unmount. Every run of the effect arms exactly
one interval of 60000 ms, and a selection that changes `timeRange` leaves the
newly armed interval as the only one, the previous one having been cleared. -/
theorem at_most_one_interval (c : Component) (h : Reachable c) :
    c.timers.length ≤ 1 ∧
    (c.mounted = true → ∃ t, c.timers = [t] ∧ t.period = 60000 ∧
      t.range = c.state.timeRange ∧ c.cleanup = some t.id) ∧
    (c.mounted = false → c.timers = []) ∧
    (∀ c0 : Component, (runEffect c0).timers
      = c0.timers ++ [{ id := c0.nextTimer, period := 60000, range := c0.state.timeRange }]) ∧
    (∀ (range : String) (c' : Component), step c (.click range) = some c' →
      range ≠ c.state.timeRange →
      c'.timers = [{ id := c.nextTimer, period := 60000, range := range }] ∧
      ∀ old ∈ c.timers, old ∉ c'.timers) := by
  obtain ⟨_, hon, hoff⟩ := reachable_invariant c h
  refine ⟨?_, ?_, ?_, fun _ => rfl, ?_⟩
  · by_cases hm : c.mounted = true
    · obtain ⟨t, ht, _⟩ := hon hm
      simp [ht]
    · simp only [Bool.not_eq_true] at hm
      simp [(hoff hm).1]
  · intro hm
    obtain ⟨t, ht, hp, hr, hc, _⟩ := hon hm
    exact ⟨t, ht, hp, hr, hc⟩
  · intro hm
    exact (hoff hm).1
  · intro range c' hs hne
    obtain ⟨hm, _, _, rfl⟩ := step_click_inv c c' range hs
    obtain ⟨t, ht, _, _, hc, hlt⟩ := hon hm
    have hne2 : ¬ c.state.timeRange = range := fun e => hne e.symm
    have htimers : (setTimeRange range c).timers
        = [{ id := c.nextTimer, period := 60000, range := range }] := by
      simp [setTimeRange, hne2, runEffect, runCleanup, startFetch, fetchStart, hc, ht,
        clearInterval]
    refine ⟨htimers, ?_⟩
    intro old hold
    rw [htimers]
    rw [ht] at hold
    simp only [List.mem_singleton] at hold ⊢
    subst hold
    intro heq
    rw [heq] at hlt
    simp at hlt

/-- The statement of C7 after the first response and a selection of `weekly`:
the interval armed at mount is gone, the one armed for `weekly` is the only
one. -/
theorem at_most_one_interval_witness :
    Reachable (stateAfter [.settle 0 (.fulfilled .null), .click "weekly"]) ∧
    (stateAfter [.settle 0 (.fulfilled .null), .click "weekly"]).timers
      = [{ id := 1, period := 60000, range := "weekly" }] ∧
    (stateAfter [.settle 0 (.fulfilled .null), .click "weekly"]).timers.length ≤ 1 :=
  ⟨⟨[.settle 0 (.fulfilled .null), .click "weekly"], rfl⟩, rfl,
    (at_most_one_interval (stateAfter [.settle 0 (.fulfilled .null), .click "weekly"])
      ⟨[.settle 0 (.fulfilled .null), .click "weekly"], rfl⟩).1⟩

/-! ## The selector -/

/-- C10: `timeRange` starts as `monthly` and in every reachable state is one of
`daily`, `weekly`, `monthly`; whenever the data view is on screen it has
exactly three selector buttons, for `daily`, `weekly`, `monthly` in that
order, labelled `Daily`, `Weekly`, `Monthly`, and exactly one of them carries
the active styling: the one whose value is the current `timeRange`. -/
theorem timeRange_and_selector_buttons (c : Component) (h : Reachable c) :
    mount.state.timeRange = "monthly" ∧
    c.state.timeRange ∈ ["daily", "weekly", "monthly"] ∧
    (∀ buttons total average updated line bar doughnut,
      screen c = some (.ok (.dashboard buttons total average updated line bar doughnut)) →
      buttons.length = 3 ∧
      buttons.map Button.onClick = ["daily", "weekly", "monthly"] ∧
      buttons.map Button.label = ["Daily", "Weekly", "Monthly"] ∧
      buttons.filter Button.isActive = [selectorButton c.state.timeRange c.state.timeRange] ∧
      (buttons.filter Button.isActive).map Button.onClick = [c.state.timeRange] ∧
      ∀ b ∈ buttons, (b.isActive = true ↔ b.onClick = c.state.timeRange)) := by
  obtain ⟨hr, _, _⟩ := reachable_invariant c h
  refine ⟨rfl, hr, ?_⟩
  intro buttons total average updated line bar doughnut hscreen
  have hrender : render c.state
      = .ok (.dashboard buttons total average updated line bar doughnut) := by
    unfold screen at hscreen
    split at hscreen
    · simpa using hscreen
    · cases hscreen
  obtain ⟨hb, _, _⟩ := render_dashboard_inv _ _ _ _ _ _ _ _ hrender
  subst hb
  have hact := active_selectorButton c.state.timeRange hr
  refine ⟨by simp [ranges], ?_, ?_, hact, ?_, ?_⟩
  · simp [ranges, selectorButton]
  · simp only [ranges, List.map_cons, List.map_nil, selectorButton]
    decide
  · rw [hact]
    simp [selectorButton]
  · intro b hb
    constructor
    · intro hactive
      have hmem : b ∈ (ranges.map (selectorButton c.state.timeRange)).filter Button.isActive :=
        List.mem_filter.mpr ⟨hb, hactive⟩
      rw [hact] at hmem
      simp only [List.mem_singleton] at hmem
      rw [hmem]
      rfl
    · intro hclick
      simp only [List.mem_map] at hb
      obtain ⟨r, _, hrb⟩ := hb
      subst hrb
      have hrr : r = c.state.timeRange := hclick
      subst hrr
      have hmem : selectorButton c.state.timeRange c.state.timeRange
          ∈ (ranges.map (selectorButton c.state.timeRange)).filter Button.isActive := by
        rw [hact]
        simp
      exact (List.mem_filter.mp hmem).2

/-- The statement of C10 after `weekly` was selected and fetched: the data
view is on screen and its only active button is the one of `weekly`. -/
theorem timeRange_and_selector_buttons_witness :
    Reachable (stateAfter [.settle 0 (.fulfilled .null), .click "weekly",
      .settle 1 (.fulfilled .null)]) ∧
    showsDashboard (stateAfter [.settle 0 (.fulfilled .null), .click "weekly",
      .settle 1 (.fulfilled .null)]) = true ∧
    (stateAfter [.settle 0 (.fulfilled .null), .click "weekly",
      .settle 1 (.fulfilled .null)]).state.timeRange ∈ ["daily", "weekly", "monthly"] :=
  ⟨⟨[.settle 0 (.fulfilled .null), .click "weekly", .settle 1 (.fulfilled .null)], rfl⟩, rfl,
    (timeRange_and_selector_buttons
      (stateAfter [.settle 0 (.fulfilled .null), .click "weekly", .settle 1 (.fulfilled .null)])
      ⟨[.settle 0 (.fulfilled .null), .click "weekly", .settle 1 (.fulfilled .null)],
        rfl⟩).2.1⟩

/-! ## Requests in flight and the loading view -/

/-- C8, as the claim states it, fails: when the first tick fires while the
request of the mount is still in flight and that request is then fulfilled,
the second request is in flight and the data view is on screen. -/
theorem data_view_while_request_pending_counterexample :
    Reachable (stateAfter [.tick 0, .settle 0 (.fulfilled .null)]) ∧
    (stateAfter [.tick 0, .settle 0 (.fulfilled .null)]).mounted = true ∧
    (stateAfter [.tick 0, .settle 0 (.fulfilled .null)]).pending
      = [{ id := 1, url := "http://localhost:3001/metrics?timeRange=monthly" }] ∧
    (stateAfter [.tick 0, .settle 0 (.fulfilled .null)]).state.loading = false ∧
    showsDashboard (stateAfter [.tick 0, .settle 0 (.fulfilled .null)]) = true ∧
    screen (stateAfter [.tick 0, .settle 0 (.fulfilled .null)])
      ≠ some (.ok (.loading "Loading dashboard data...")) := by
  refine ⟨⟨[.tick 0, .settle 0 (.fulfilled .null)], rfl⟩, rfl, rfl, rfl, rfl, ?_⟩
  intro h
  have hd : showsDashboard (stateAfter [.tick 0, .settle 0 (.fulfilled .null)]) = true := rfl
  unfold showsDashboard at hd
  rw [h] at hd
  cases hd

/-- C8, amended: in every reachable state of the mounted component the loading
view is the one on screen exactly when no request has settled since the most
recent request was issued. So while a request is in flight and none has
settled since the latest one was issued (also right after `timeRange` was
changed or the tick fired while an earlier request was outstanding) the
loading view is rendered and neither the data view nor the error view is; once
a request has settled, the error view or the data view is rendered, whatever
is still in flight. -/
theorem loading_view_until_a_request_settles (events : List Event) (c : Component)
    (hrun : run mount events = some c) (hm : c.mounted = true) :
    (screen c = some (.ok (.loading "Loading dashboard data..."))
      ↔ unsettledSinceStart mount events true = true) ∧
    (unsettledSinceStart mount events true = true → c.pending ≠ []) ∧
    (unsettledSinceStart mount events true = false →
      (∃ child, screen c = some (.ok (.error child))) ∨ showsDashboard c = true) := by
  obtain ⟨hload, hpend⟩ :=
    run_loading events mount c true (fun _ => ⟨rfl, fun _ => by decide⟩) hrun hm
  obtain ⟨v, hv⟩ := reachable_render_ok c ⟨events, hrun⟩ hm
  obtain ⟨line, bar, doughnut, hl, hb, hd⟩ := charts_of_render c.state v hv
  have hrender := render_of_charts c.state line bar doughnut hl hb hd
  have hscreen : screen c = some (render c.state) := by simp [screen, hm]
  refine ⟨?_, hpend, ?_⟩
  · rw [← hload, hscreen, hrender]
    constructor
    · intro h
      by_contra hf
      simp only [Bool.not_eq_true] at hf
      simp only [hf, Bool.false_eq_true, if_false, Option.some.injEq, Except.ok.injEq] at h
      split at h <;> cases h
    · intro h
      simp [h]
  · intro hu
    rw [hu] at hload
    by_cases herr : (errorValue c.state.error).truthy = true
    · left
      exact ⟨errorValue c.state.error, by simp [hscreen, hrender, hload, herr]⟩
    · right
      simp [showsDashboard, hscreen, hrender, hload, herr]

/-- The statement of C8 after a history with overlapping requests: both the
request of the mount and that of the first tick have settled, and the next
tick has issued a third one; the loading view is on screen. -/
theorem loading_view_until_a_request_settles_witness :
    (stateAfter [.tick 0, .settle 0 (.fulfilled .null), .settle 1 (.fulfilled .null),
      .tick 0]).pending
      = [{ id := 2, url := "http://localhost:3001/metrics?timeRange=monthly" }] ∧
    screen (stateAfter [.tick 0, .settle 0 (.fulfilled .null), .settle 1 (.fulfilled .null),
      .tick 0]) = some (.ok (.loading "Loading dashboard data...")) :=
  ⟨rfl,
    (loading_view_until_a_request_settles
      [.tick 0, .settle 0 (.fulfilled .null), .settle 1 (.fulfilled .null), .tick 0]
      (stateAfter [.tick 0, .settle 0 (.fulfilled .null), .settle 1 (.fulfilled .null),
        .tick 0]) rfl rfl).1.mpr rfl⟩

/-! ## Selecting a range -/

/-- C9, as the claim states it, fails: with the data view on screen and
`timeRange` equal to `monthly`, a click on the `monthly` button is accepted
and leaves the component as it was; no request is issued. -/
theorem select_current_range_counterexample :
    Reachable (stateAfter [.settle 0 (.fulfilled .null)]) ∧
    showsDashboard (stateAfter [.settle 0 (.fulfilled .null)]) = true ∧
    (stateAfter [.settle 0 (.fulfilled .null)]).state.timeRange = "monthly" ∧
    (stateAfter [.settle 0 (.fulfilled .null)]).pending = [] ∧
    (stateAfter [.settle 0 (.fulfilled .null)]).nextRequest = 1 ∧
    (∃ c', step (stateAfter [.settle 0 (.fulfilled .null)]) (.click "monthly") = some c' ∧
      c'.pending = [] ∧ c'.nextRequest = 1) :=
  ⟨⟨[.settle 0 (.fulfilled .null)], rfl⟩, rfl, rfl, rfl, rfl, ⟨_, rfl, rfl, rfl⟩⟩

/-- C9, amended: with the data view on screen, selecting through its button a
value of `daily`, `weekly`, `monthly` other than the current `timeRange` issues
exactly one request at once, a `GET` of the fixed origin followed by
`/metrics?timeRange=` and the value, and makes the value the current one;
selecting the current value issues none and changes nothing; mounting issues
exactly one request, for `monthly`. -/
theorem select_other_range_fetches_once (c : Component) (v : String)
    (hv : v ∈ ["daily", "weekly", "monthly"]) (hs : showsDashboard c = true) :
    (v ≠ c.state.timeRange →
      ∃ c', step c (.click v) = some c' ∧
        c'.pending = c.pending ++
          [{ id := c.nextRequest, url := "http://localhost:3001/metrics?timeRange=" ++ v }] ∧
        c'.nextRequest = c.nextRequest + 1 ∧ c'.state.timeRange = v) ∧
    (v = c.state.timeRange → step c (.click v) = some c) ∧
    mount.pending = [{ id := 0, url := "http://localhost:3001/metrics?timeRange=monthly" }] ∧
    mount.nextRequest = 1 ∧ mount.state.timeRange = "monthly" := by
  have hstep : step c (.click v) = some (setTimeRange v c) :=
    step_click_of_showsDashboard c v hv hs
  refine ⟨?_, ?_, rfl, rfl, rfl⟩
  · intro hne
    have hne2 : ¬ c.state.timeRange = v := fun e => hne e.symm
    obtain ⟨_, h2, h3, h4⟩ := setTimeRange_other c v hne2
    exact ⟨setTimeRange v c, hstep, h3, h2, h4⟩
  · intro he
    rw [hstep]
    simp [setTimeRange, he]

/-- The statement of C9 after the first response, for a selection of `daily`:
one request, for `daily`, is issued. -/
theorem select_other_range_fetches_once_witness :
    showsDashboard (stateAfter [.settle 0 (.fulfilled .null)]) = true ∧
    ∃ c', step (stateAfter [.settle 0 (.fulfilled .null)]) (.click "daily") = some c' ∧
      c'.pending = (stateAfter [.settle 0 (.fulfilled .null)]).pending ++
        [{ id := (stateAfter [.settle 0 (.fulfilled .null)]).nextRequest,
           url := "http://localhost:3001/metrics?timeRange=" ++ "daily" }] ∧
      c'.nextRequest = (stateAfter [.settle 0 (.fulfilled .null)]).nextRequest + 1 ∧
      c'.state.timeRange = "daily" :=
  ⟨rfl,
    (select_other_range_fetches_once (stateAfter [.settle 0 (.fulfilled .null)]) "daily"
      (by decide) rfl).1 (by decide)⟩

end Dashboard
